import Mathlib

/-!
Verification of the golib/assert comparison engine (a testify-derived Go
assertion library) against its specification.

The repository's dynamically-typed Go values are shallowly embedded as the
inductive `GoVal` below, with runtime type descriptors as `GoType` and Go's
coarse kind classification as `GoKind`.  Go `float32`/`float64` values are
embedded as exact rationals plus an explicit NaN (`GoFloat`); every claim
settled here is insensitive to binary rounding, and each spot where the
embedding fixes an implementation-defined Go behaviour is marked in a comment.
Machine integers are `Int` with explicit wrapping where conversions overflow.
Reflection panics are modelled as `Except`/`Option` failures.
-/

namespace GolibAssert

/-- A Go floating-point value: an exact rational, or NaN.  (Infinities do not
occur in any claim; finite doubles embed exactly as rationals.) -/
inductive GoFloat where
  | nan : GoFloat
  | fin (q : ℚ) : GoFloat
deriving DecidableEq, Repr

namespace GoFloat

/-- Whether the value is NaN, as `math.IsNaN` reports. -/
def isNaN : GoFloat → Bool
  | nan => true
  | fin _ => false

/-- Go floating-point equality: NaN is unequal to everything, including itself. -/
def feq : GoFloat → GoFloat → Bool
  | fin a, fin b => a = b
  | _, _ => false

/-- Go floating-point negation; -NaN stays NaN. -/
def fneg : GoFloat → GoFloat
  | nan => nan
  | fin q => fin (-q)

/-- Go floating-point subtraction; any NaN operand yields NaN. -/
def fsub : GoFloat → GoFloat → GoFloat
  | fin a, fin b => fin (a - b)
  | _, _ => nan

/-- Go `<` on floats: false whenever either operand is NaN. -/
def flt : GoFloat → GoFloat → Bool
  | fin a, fin b => a < b
  | _, _ => false

/-- Go `>` on floats: false whenever either operand is NaN. -/
def fgt (x y : GoFloat) : Bool := flt y x

end GoFloat

/-- The coarse kind of a Go runtime type, as `reflect.Kind` classifies it
(restricted to the kinds this library's code paths dispatch on). -/
inductive GoKind where
  | invalid | kbool | kint | kuint | kfloat | kstring
  | kslice | karray | kmap | kstruct | kptr | kfunc
deriving DecidableEq, Repr

/-- A Go runtime type descriptor, covering the types the assertion engine's
code paths distinguish.  Struct types carry, per field: name, `json` tag,
exported flag, and field type (tags take part in Go type identity).
`reflectValue` stands for the struct type `reflect.Value` itself, which the
source leaks into one `DeepEqual` comparison. -/
inductive GoType where
  | tbool
  | tint | tint8 | tint16 | tint32 | tint64
  | tuint | tuint8 | tuint16 | tuint32 | tuint64
  | tfloat32 | tfloat64
  | tstring
  | tslice (elem : GoType)
  | tarray (n : Nat) (elem : GoType)
  | tmap (key val : GoType)
  | tstruct (name : String) (fields : List (String × String × Bool × GoType))
  | tptr (elem : GoType)
  | tfunc (sig : Nat)
  | reflectValue
  | invalid
deriving Repr

namespace GoType

mutual

/-- Boolean equality of Go type descriptors (Go type identity; struct tags
participate). -/
def beq : GoType → GoType → Bool
  | tbool, tbool => true
  | tint, tint => true
  | tint8, tint8 => true
  | tint16, tint16 => true
  | tint32, tint32 => true
  | tint64, tint64 => true
  | tuint, tuint => true
  | tuint8, tuint8 => true
  | tuint16, tuint16 => true
  | tuint32, tuint32 => true
  | tuint64, tuint64 => true
  | tfloat32, tfloat32 => true
  | tfloat64, tfloat64 => true
  | tstring, tstring => true
  | tslice e1, tslice e2 => beq e1 e2
  | tarray n1 e1, tarray n2 e2 => n1 == n2 && beq e1 e2
  | tmap k1 v1, tmap k2 v2 => beq k1 k2 && beq v1 v2
  | tstruct n1 f1, tstruct n2 f2 => n1 == n2 && beqFields f1 f2
  | tptr e1, tptr e2 => beq e1 e2
  | tfunc s1, tfunc s2 => s1 == s2
  | reflectValue, reflectValue => true
  | invalid, invalid => true
  | _, _ => false

/-- Equality of struct-type field lists (name, tag, exported flag, type). -/
def beqFields : List (String × String × Bool × GoType) →
    List (String × String × Bool × GoType) → Bool
  | [], [] => true
  | (n1, t1, e1, ty1) :: f1, (n2, t2, e2, ty2) :: f2 =>
    n1 == n2 && t1 == t2 && e1 == e2 && beq ty1 ty2 && beqFields f1 f2
  | _, _ => false

end

/-- The `reflect.Kind` of a type. -/
def kind : GoType → GoKind
  | tbool => .kbool
  | tint | tint8 | tint16 | tint32 | tint64 => .kint
  | tuint | tuint8 | tuint16 | tuint32 | tuint64 => .kuint
  | tfloat32 | tfloat64 => .kfloat
  | tstring => .kstring
  | tslice _ => .kslice
  | tarray _ _ => .karray
  | tmap _ _ => .kmap
  | tstruct _ _ => .kstruct
  | tptr _ => .kptr
  | tfunc _ => .kfunc
  | reflectValue => .kstruct
  | invalid => .invalid

/-- `reflect.Type.Elem` for pointer types (identity elsewhere; only the
pointer case is exercised by the source's `typeAndKind`). -/
def elemType : GoType → GoType
  | tptr e => e
  | t => t

end GoType

/-- A dynamically-typed Go value.  Slices, maps and pointers carry the base
address of their referent as a `Nat` (`none` is the nil slice/map/pointer),
so that `reflect.DeepEqual`'s identity short-circuits are expressible.
`vreflect` is a `reflect.Value` struct wrapping a value; it arises only as an
operand of the dead second conversion branch of `AreEqualValues`.  Struct
fields are (name, json tag, exported flag, value). -/
inductive GoVal where
  | nilv
  | vbool (b : Bool)
  | vint (t : GoType) (n : Int)
  | vfloat (t : GoType) (x : GoFloat)
  | vstr (s : String)
  | vslice (elem : GoType) (ref : Option (Nat × List GoVal))
  | varray (elem : GoType) (elems : List GoVal)
  | vmap (kt vt : GoType) (ref : Option (Nat × List (GoVal × GoVal)))
  | vstruct (name : String) (fields : List (String × String × Bool × GoVal))
  | vptr (elem : GoType) (ref : Option (Nat × GoVal))
  | vfunc (sig : Nat) (isNil : Bool)
  | vreflect (v : GoVal)
deriving Repr

namespace GoVal

mutual

/-- `reflect.TypeOf` on a value (`invalid` for the nil interface, whose
`reflect.TypeOf` is the nil descriptor). -/
def typeOf : GoVal → GoType
  | nilv => .invalid
  | vbool _ => .tbool
  | vint t _ => t
  | vfloat t _ => t
  | vstr _ => .tstring
  | vslice e _ => .tslice e
  | varray e es => .tarray es.length e
  | vmap kt vt _ => .tmap kt vt
  | vstruct n fs => .tstruct n (typeOfFields fs)
  | vptr e _ => .tptr e
  | vfunc sig _ => .tfunc sig
  | vreflect _ => .reflectValue

/-- Types of a struct's fields, preserving name, tag and exported flag. -/
def typeOfFields : List (String × String × Bool × GoVal) →
    List (String × String × Bool × GoType)
  | [] => []
  | (n, tag, ex, v) :: fs => (n, tag, ex, typeOf v) :: typeOfFields fs

end

/-- Whether a value is the nil interface (`v == nil` on an `interface{}`;
typed nil pointers and nil slices are not the nil interface). -/
def isNilv : GoVal → Bool
  | nilv => true
  | _ => false

end GoVal

mutual

/-- `reflect.Zero(t).Interface()`: the zero-initialized value of a type.
Zero slices/maps/pointers are nil; zero funcs are nil; zero arrays and
structs are zero element-wise and field-wise. -/
def zeroOf : GoType → GoVal
  | .tbool => .vbool false
  | .tint => .vint .tint 0
  | .tint8 => .vint .tint8 0
  | .tint16 => .vint .tint16 0
  | .tint32 => .vint .tint32 0
  | .tint64 => .vint .tint64 0
  | .tuint => .vint .tuint 0
  | .tuint8 => .vint .tuint8 0
  | .tuint16 => .vint .tuint16 0
  | .tuint32 => .vint .tuint32 0
  | .tuint64 => .vint .tuint64 0
  | .tfloat32 => .vfloat .tfloat32 (.fin 0)
  | .tfloat64 => .vfloat .tfloat64 (.fin 0)
  | .tstring => .vstr ""
  | .tslice e => .vslice e none
  | .tarray n e => .varray e (List.replicate n (zeroOf e))
  | .tmap kt vt => .vmap kt vt none
  | .tstruct n fs => .vstruct n (zeroOfFields fs)
  | .tptr e => .vptr e none
  | .tfunc sig => .vfunc sig true
  | .reflectValue => .vreflect .nilv
  | .invalid => .nilv

/-- Zero values of a struct type's fields. -/
def zeroOfFields : List (String × String × Bool × GoType) →
    List (String × String × Bool × GoVal)
  | [] => []
  | (n, tag, ex, t) :: fs => (n, tag, ex, zeroOf t) :: zeroOfFields fs

end

mutual

/-- Structural (syntactic) equality of embedded values, addresses included.
Used only to model `pretty.Diff` returning an empty difference list on
identical values. -/
def GoVal.beq : GoVal → GoVal → Bool
  | .nilv, .nilv => true
  | .vbool a, .vbool b => a == b
  | .vint t1 a, .vint t2 b => GoType.beq t1 t2 && a == b
  | .vfloat t1 a, .vfloat t2 b => GoType.beq t1 t2 && a == b
  | .vstr a, .vstr b => a == b
  | .vslice e1 none, .vslice e2 none => GoType.beq e1 e2
  | .vslice e1 (some (a1, l1)), .vslice e2 (some (a2, l2)) =>
    GoType.beq e1 e2 && a1 == a2 && GoVal.beqList l1 l2
  | .varray e1 l1, .varray e2 l2 => GoType.beq e1 e2 && GoVal.beqList l1 l2
  | .vmap k1 v1 none, .vmap k2 v2 none => GoType.beq k1 k2 && GoType.beq v1 v2
  | .vmap k1 v1 (some (a1, m1)), .vmap k2 v2 (some (a2, m2)) =>
    GoType.beq k1 k2 && GoType.beq v1 v2 && a1 == a2 && GoVal.beqEntries m1 m2
  | .vstruct n1 f1, .vstruct n2 f2 => n1 == n2 && GoVal.beqFields f1 f2
  | .vptr e1 none, .vptr e2 none => GoType.beq e1 e2
  | .vptr e1 (some (a1, p1)), .vptr e2 (some (a2, p2)) =>
    GoType.beq e1 e2 && a1 == a2 && GoVal.beq p1 p2
  | .vfunc s1 n1, .vfunc s2 n2 => s1 == s2 && n1 == n2
  | .vreflect a, .vreflect b => GoVal.beq a b
  | _, _ => false

/-- Structural equality of value lists. -/
def GoVal.beqList : List GoVal → List GoVal → Bool
  | [], [] => true
  | a :: as', b :: bs => GoVal.beq a b && GoVal.beqList as' bs
  | _, _ => false

/-- Structural equality of struct field lists. -/
def GoVal.beqFields : List (String × String × Bool × GoVal) →
    List (String × String × Bool × GoVal) → Bool
  | [], [] => true
  | (n1, t1, e1, v1) :: f1, (n2, t2, e2, v2) :: f2 =>
    n1 == n2 && t1 == t2 && e1 == e2 && GoVal.beq v1 v2 && GoVal.beqFields f1 f2
  | _, _ => false

/-- Structural equality of map entry lists. -/
def GoVal.beqEntries : List (GoVal × GoVal) → List (GoVal × GoVal) → Bool
  | [], [] => true
  | (k1, v1) :: m1, (k2, v2) :: m2 =>
    GoVal.beq k1 k2 && GoVal.beq v1 v2 && GoVal.beqEntries m1 m2
  | _, _ => false

end

mutual

/-- Go's built-in `==` on comparable values (used by map key lookup):
dynamic types must match, floats compare by IEEE `==` (NaN unequal to
itself), pointers compare by address, arrays element-wise, structs
field-wise.  Slices, maps and funcs are not comparable in Go (using them as
map keys panics); such comparisons cannot arise from well-typed Go map keys
and are mapped to `false` here. -/
def goEq : GoVal → GoVal → Bool
  | .nilv, .nilv => true
  | .vbool a, .vbool b => a == b
  | .vint t1 a, .vint t2 b => GoType.beq t1 t2 && a == b
  | .vfloat t1 a, .vfloat t2 b => GoType.beq t1 t2 && GoFloat.feq a b
  | .vstr a, .vstr b => a == b
  | .varray e1 l1, .varray e2 l2 =>
    GoType.beq e1 e2 && l1.length == l2.length && goEqList l1 l2
  | .vstruct n1 f1, .vstruct n2 f2 => n1 == n2 && goEqFields f1 f2
  | .vptr e1 none, .vptr e2 none => GoType.beq e1 e2
  | .vptr e1 (some (a1, _)), .vptr e2 (some (a2, _)) =>
    GoType.beq e1 e2 && a1 == a2
  | _, _ => false

/-- Go `==` element-wise on array contents. -/
def goEqList : List GoVal → List GoVal → Bool
  | [], [] => true
  | a :: as', b :: bs => goEq a b && goEqList as' bs
  | _, _ => false

/-- Go `==` field-wise on struct contents. -/
def goEqFields : List (String × String × Bool × GoVal) →
    List (String × String × Bool × GoVal) → Bool
  | [], [] => true
  | (n1, t1, e1, v1) :: f1, (n2, t2, e2, v2) :: f2 =>
    n1 == n2 && t1 == t2 && e1 == e2 && goEq v1 v2 && goEqFields f1 f2
  | _, _ => false

end

/-- `reflect.Value.MapIndex` on an entry list: the value of the first entry
whose key compares `==` to the probe (maps built by Go have `==`-distinct
keys; a NaN-containing probe matches nothing, as in Go). -/
def goLookup (entries : List (GoVal × GoVal)) (k : GoVal) : Option GoVal :=
  match entries.find? (fun e => goEq e.1 k) with
  | some e => some e.2
  | none => none

mutual

/-- `reflect.DeepEqual` from the Go runtime, as the source relies on it:
nil interfaces are handled first, then dynamic types must be identical,
then values compare structurally — with the runtime's identity
short-circuits: slices also compare equal when they share base address
(after the nil and length checks), maps when they are the same map object,
pointers when addresses coincide.  Func values are deeply equal only when
both are nil.  NaN is unequal to itself.  Two `reflect.Value` wrappers are
compared by their wrapped values (such wrappers reach `DeepEqual` only as
the right operand of the dead second branch of `AreEqualValues`, where the
left operand is never a wrapper). -/
def deepEqual : GoVal → GoVal → Bool
  | .nilv, .nilv => true
  | .nilv, _ => false
  | _, .nilv => false
  | x, y =>
    GoType.beq (GoVal.typeOf x) (GoVal.typeOf y) &&
    match x, y with
    | .vbool a, .vbool b => a == b
    | .vint _ a, .vint _ b => a == b
    | .vfloat _ a, .vfloat _ b => GoFloat.feq a b
    | .vstr a, .vstr b => a == b
    | .vslice _ none, .vslice _ none => true
    | .vslice _ (some (a1, l1)), .vslice _ (some (a2, l2)) =>
      l1.length == l2.length && (a1 == a2 || deepEqualList l1 l2)
    | .varray _ l1, .varray _ l2 => deepEqualList l1 l2
    | .vmap _ _ none, .vmap _ _ none => true
    | .vmap _ _ (some (a1, m1)), .vmap _ _ (some (a2, m2)) =>
      m1.length == m2.length && (a1 == a2 || deepEqualEntries m1 m2)
    | .vstruct _ f1, .vstruct _ f2 => deepEqualFields f1 f2
    | .vptr _ none, .vptr _ none => true
    | .vptr _ (some (a1, p1)), .vptr _ (some (a2, p2)) =>
      a1 == a2 || deepEqual p1 p2
    | .vfunc _ n1, .vfunc _ n2 => n1 && n2
    | .vreflect a, .vreflect b => deepEqual a b
    | _, _ => false

/-- Element-wise deep equality of slice and array contents. -/
def deepEqualList : List GoVal → List GoVal → Bool
  | [], [] => true
  | a :: as', b :: bs => deepEqual a b && deepEqualList as' bs
  | _, _ => false

/-- Field-wise deep equality of struct contents (all fields, exported or
not, as `reflect.DeepEqual` does; names, tags and types already agreed via
the type check). -/
def deepEqualFields : List (String × String × Bool × GoVal) →
    List (String × String × Bool × GoVal) → Bool
  | [], [] => true
  | (_, _, _, v1) :: f1, (_, _, _, v2) :: f2 =>
    deepEqual v1 v2 && deepEqualFields f1 f2
  | _, _ => false

/-- The per-key loop of `DeepEqual` on maps: every key of the first map must
be found in both maps and the associated values must be deeply equal.
`goEq k k` models `v1.MapIndex(k).IsValid()` — a NaN-containing key is
unreachable even in its own map (Go maps have `==`-distinct keys, so the
first map's self-lookup of a reachable key returns that key's own entry). -/
def deepEqualEntries : List (GoVal × GoVal) → List (GoVal × GoVal) → Bool
  | [], _ => true
  | (k, w) :: rest, m2 =>
    goEq k k && findKeyAndCompare k w m2 && deepEqualEntries rest m2

/-- `v2.MapIndex(k)` fused with the deep comparison of the found value
against `w`: scans the second map's entries for the first `==`-matching key. -/
def findKeyAndCompare (k w : GoVal) : List (GoVal × GoVal) → Bool
  | [] => false
  | (k2, w2) :: rest =>
    if goEq k2 k then deepEqual w w2 else findKeyAndCompare k w rest

end

/-- `AreEqualObjects` (asserts.go): both nil → true; exactly one nil →
false (the source returns `expected == actual` there); otherwise
`reflect.DeepEqual`. -/
def areEqualObjects (expected actual : GoVal) : Bool :=
  match expected, actual with
  | .nilv, .nilv => true
  | .nilv, _ => false
  | _, .nilv => false
  | e, a => deepEqual e a

mutual

/-- A value is self-unequal under `reflect.DeepEqual` exactly when a NaN
float or a non-nil func value is reachable from it through value paths
(struct fields, array elements, `reflect.Value` wrapping).  Slice, map and
pointer indirection is never crossed: comparing a value with itself meets
the runtime's identity short-circuits there. -/
def selfBad : GoVal → Bool
  | .vfloat _ x => x.isNaN
  | .vfunc _ isnil => !isnil
  | .varray _ es => selfBadList es
  | .vstruct _ fs => selfBadFields fs
  | .vreflect v => selfBad v
  | _ => false

/-- Whether any element of an array is self-unequal. -/
def selfBadList : List GoVal → Bool
  | [] => false
  | a :: as' => selfBad a || selfBadList as'

/-- Whether any field of a struct is self-unequal. -/
def selfBadFields : List (String × String × Bool × GoVal) → Bool
  | [] => false
  | (_, _, _, v) :: fs => selfBad v || selfBadFields fs

end

mutual

theorem GoType.beq_refl : (t : GoType) → GoType.beq t t = true
  | .tbool => rfl
  | .tint => rfl
  | .tint8 => rfl
  | .tint16 => rfl
  | .tint32 => rfl
  | .tint64 => rfl
  | .tuint => rfl
  | .tuint8 => rfl
  | .tuint16 => rfl
  | .tuint32 => rfl
  | .tuint64 => rfl
  | .tfloat32 => rfl
  | .tfloat64 => rfl
  | .tstring => rfl
  | .reflectValue => rfl
  | .invalid => rfl
  | .tslice e => GoType.beq_refl e
  | .tarray n e => by
    have ih := GoType.beq_refl e
    change (n == n && GoType.beq e e) = true
    simp [ih]
  | .tmap k v => by
    have ih1 := GoType.beq_refl k
    have ih2 := GoType.beq_refl v
    change (GoType.beq k k && GoType.beq v v) = true
    simp [ih1, ih2]
  | .tstruct n fs => by
    have ih := GoType.beqFields_refl fs
    change (n == n && GoType.beqFields fs fs) = true
    simp [ih]
  | .tptr e => GoType.beq_refl e
  | .tfunc s => by
    change (s == s) = true
    simp

theorem GoType.beqFields_refl : (fs : List (String × String × Bool × GoType)) →
    GoType.beqFields fs fs = true
  | [] => rfl
  | (n, t, e, ty) :: fs => by
    have ih1 := GoType.beq_refl ty
    have ih2 := GoType.beqFields_refl fs
    change (n == n && t == t && e == e && GoType.beq ty ty &&
      GoType.beqFields fs fs) = true
    simp [ih1, ih2]

end

mutual

theorem deepEqual_self : (a : GoVal) → deepEqual a a = !(selfBad a)
  | .nilv => by simp [deepEqual, selfBad]
  | .vbool b => by
    simp [deepEqual, selfBad, GoVal.typeOf, GoType.beq_refl]
  | .vint t n => by simp [deepEqual, selfBad, GoVal.typeOf, GoType.beq_refl]
  | .vfloat t x => by
    cases x <;>
      simp [deepEqual, selfBad, GoVal.typeOf, GoType.beq_refl, GoFloat.feq,
        GoFloat.isNaN]
  | .vstr s => by simp [deepEqual, selfBad, GoVal.typeOf, GoType.beq_refl]
  | .vslice e none => by simp [deepEqual, selfBad, GoVal.typeOf, GoType.beq_refl]
  | .vslice e (some (a, l)) => by
    simp [deepEqual, selfBad, GoVal.typeOf, GoType.beq_refl]
  | .varray e l => by
    have ih := deepEqualList_self l
    simp [deepEqual, selfBad, GoVal.typeOf, GoType.beq_refl, ih]
  | .vmap kt vt none => by
    simp [deepEqual, selfBad, GoVal.typeOf, GoType.beq_refl]
  | .vmap kt vt (some (a, m)) => by
    simp [deepEqual, selfBad, GoVal.typeOf, GoType.beq_refl]
  | .vstruct n fs => by
    have ih := deepEqualFields_self fs
    simp [deepEqual, selfBad, GoVal.typeOf, GoType.beq_refl, ih]
  | .vptr e none => by simp [deepEqual, selfBad, GoVal.typeOf, GoType.beq_refl]
  | .vptr e (some (a, p)) => by
    simp [deepEqual, selfBad, GoVal.typeOf, GoType.beq_refl]
  | .vfunc s n => by
    cases n <;> simp [deepEqual, selfBad, GoVal.typeOf, GoType.beq_refl]
  | .vreflect v => by
    have ih := deepEqual_self v
    simp [deepEqual, selfBad, GoVal.typeOf, GoType.beq_refl, ih]

theorem deepEqualList_self : (l : List GoVal) →
    deepEqualList l l = !(selfBadList l)
  | [] => by simp [deepEqualList, selfBadList]
  | a :: as' => by
    have ih1 := deepEqual_self a
    have ih2 := deepEqualList_self as'
    simp [deepEqualList, selfBadList, ih1, ih2]

theorem deepEqualFields_self : (fs : List (String × String × Bool × GoVal)) →
    deepEqualFields fs fs = !(selfBadFields fs)
  | [] => by simp [deepEqualFields, selfBadFields]
  | (n, t, e, v) :: fs => by
    have ih1 := deepEqual_self v
    have ih2 := deepEqualFields_self fs
    simp [deepEqualFields, selfBadFields, ih1, ih2]

end

/-- C5 (counterexample): the claim "equalStrict(a, a) is true for every a
except a float-kind NaN" is false: a non-nil function value — which is not
a float-kind NaN — is self-unequal under `AreEqualObjects`, because
`reflect.DeepEqual` deems non-nil func values unequal even to themselves. -/
theorem c5_counterexample_nonnil_func_self_unequal :
    areEqualObjects (.vfunc 0 false) (.vfunc 0 false) = false := by
  simp [areEqualObjects, deepEqual]

/-- C5 (amended): `AreEqualObjects(a, a)` is true for every value `a`
except exactly when a NaN float or a non-nil func value is reachable from
`a` through value paths (directly, through struct fields, array elements,
or a `reflect.Value` wrapper); a NaN behind a slice, map or pointer does
not break self-equality, because `reflect.DeepEqual` short-circuits on
identity there. -/
theorem c5_equalStrict_reflexive_amended (a : GoVal) :
    areEqualObjects a a = !(selfBad a) := by
  cases a <;> first
    | exact deepEqual_self _
    | simp [areEqualObjects, selfBad]

/-- Rendering of a Go type descriptor, as the `%T` format verb and
`reflect.Value.String` produce it. -/
def typeName : GoType → String
  | .tbool => "bool"
  | .tint => "int"
  | .tint8 => "int8"
  | .tint16 => "int16"
  | .tint32 => "int32"
  | .tint64 => "int64"
  | .tuint => "uint"
  | .tuint8 => "uint8"
  | .tuint16 => "uint16"
  | .tuint32 => "uint32"
  | .tuint64 => "uint64"
  | .tfloat32 => "float32"
  | .tfloat64 => "float64"
  | .tstring => "string"
  | .tslice e => "[]" ++ typeName e
  | .tarray n e => "[" ++ toString n ++ "]" ++ typeName e
  | .tmap k v => "map[" ++ typeName k ++ "]" ++ typeName v
  | .tstruct n _ => n
  | .tptr e => "*" ++ typeName e
  | .tfunc _ => "func()"
  | .reflectValue => "reflect.Value"
  | .invalid => "<nil>"

mutual

/-- The Go-syntax rendering of a value, as `pretty.Sprintf` with the
format verb `%#v` produces it.  Exact float formatting is immaterial to
every claim (the embedding prints the rational); integers and strings
render as in Go. -/
def prettySprint : GoVal → String
  | .nilv => "<nil>"
  | .vbool b => cond b "true" "false"
  | .vint _ n => toString n
  | .vfloat _ (.fin q) => toString q
  | .vfloat _ .nan => "NaN"
  | .vstr s => "\"" ++ s ++ "\""
  | .vslice e none => typeName (.tslice e) ++ "(nil)"
  | .vslice e (some (_, l)) =>
    typeName (.tslice e) ++ "\x7b" ++ prettySprintList l ++ "\x7d"
  | .varray e l =>
    typeName (.tarray l.length e) ++ "\x7b" ++ prettySprintList l ++ "\x7d"
  | .vmap kt vt none => typeName (.tmap kt vt) ++ "(nil)"
  | .vmap kt vt (some (_, m)) =>
    typeName (.tmap kt vt) ++ "\x7b" ++ prettySprintEntries m ++ "\x7d"
  | .vstruct n fs => n ++ "\x7b" ++ prettySprintFields fs ++ "\x7d"
  | .vptr e none => "(" ++ typeName (.tptr e) ++ ")(nil)"
  | .vptr _ (some (_, p)) => "&" ++ prettySprint p
  | .vfunc _ _ => "(func())(...)"
  | .vreflect _ => "reflect.Value\x7b...\x7d"

/-- Comma-joined renderings of the elements of a slice or array. -/
def prettySprintList : List GoVal → String
  | [] => ""
  | [a] => prettySprint a
  | a :: as' => prettySprint a ++ ", " ++ prettySprintList as'

/-- Comma-joined `name:value` renderings of struct fields. -/
def prettySprintFields : List (String × String × Bool × GoVal) → String
  | [] => ""
  | [(n, _, _, v)] => n ++ ":" ++ prettySprint v
  | (n, _, _, v) :: fs => n ++ ":" ++ prettySprint v ++ ", " ++
      prettySprintFields fs

/-- Comma-joined `key:value` renderings of map entries. -/
def prettySprintEntries : List (GoVal × GoVal) → String
  | [] => ""
  | [(k, v)] => prettySprint k ++ ":" ++ prettySprint v
  | (k, v) :: m => prettySprint k ++ ":" ++ prettySprint v ++ ", " ++
      prettySprintEntries m

end

/-- The reporting sink: an abstraction of the `Testing` interface
(`Errorf` capability, recorded in `errors`) together with whether the
concrete sink also implements the optional `failNower` interface
(`FailNow()`), and whether that abort capability has been invoked. -/
structure Sink where
  errors : List String
  hasFailNow : Bool
  failNowCalled : Bool
deriving Repr, DecidableEq

/-- `Fail` (asserts.go): formats the failure block and emits it through the
sink's `Errorf`, always returning false.  The call-site trace, label
alignment and optional extra-args block are runtime introspection and
string layout; the model records that `Errorf` received the failure
message. -/
def goFail (t : Sink) (message : String) : Sink × Bool :=
  ({ t with errors := t.errors ++ [message] }, false)

/-- `True` (asserts.go): a type switch extracts the value only when its
dynamic type is exactly `bool`; every other value leaves the extracted
boolean at its zero value `false`, which then fails the assertion. -/
def goTrue (t : Sink) (v : GoVal) : Sink × Bool :=
  let tv : Bool := match v with
    | .vbool b => b
    | _ => false
  if !tv then goFail t ("Expected " ++ prettySprint v ++ " to be true")
  else (t, true)

/-- `False` (asserts.go): the same type switch; any non-bool value leaves
the extracted boolean `false`, so the assertion succeeds. -/
def goFalse (t : Sink) (v : GoVal) : Sink × Bool :=
  let fv : Bool := match v with
    | .vbool b => b
    | _ => false
  if fv then goFail t ("Expected " ++ prettySprint v ++ " to be false")
  else (t, true)

/-- `Zero` (asserts.go): fails iff the value is non-nil and does not
`reflect.DeepEqual` the zero value of its own runtime type. -/
def goZero (t : Sink) (v : GoVal) : Sink × Bool :=
  if !(GoVal.isNilv v) && !(deepEqual v (zeroOf (GoVal.typeOf v))) then
    goFail t ("Should be zero value of " ++ typeName (GoVal.typeOf v) ++
      ", but got: " ++ prettySprint v)
  else (t, true)

/-- How a call to `FailNow` terminates: by invoking the sink's abort
capability and returning `false`, or by panicking. -/
inductive FailNowResult where
  | returned (t : Sink) (ret : Bool)
  | panicked (t : Sink) (message : String)
deriving Repr, DecidableEq

/-- `FailNow` (asserts.go): reports the failure through `Fail`, then
invokes the sink's `FailNow()` if the concrete sink implements it, and
otherwise panics — it never falls back to a plain failure return. -/
def goFailNow (t : Sink) (message : String) : FailNowResult :=
  let t1 := (goFail t message).1
  if t1.hasFailNow then
    .returned { t1 with failNowCalled := true } false
  else
    .panicked t1
      ("test failed and Testing does not implement FailNow()")

/-- C7: `Zero(t, v)` succeeds iff `v` is nil or `v` deep-equals the
zero-initialized value of its own runtime type (nil counts as zero for any
type), and a non-nil zero-length slice is not zero, because the zero value
of a slice type is the nil slice. -/
theorem c7_zero_value_check (t : Sink) (v : GoVal) (et : GoType) (addr : Nat) :
    ((goZero t v).2 = true ↔
      v = .nilv ∨ deepEqual v (zeroOf (GoVal.typeOf v)) = true) ∧
    (goZero t (.vslice et (some (addr, [])))).2 = false := by
  constructor
  · by_cases hd : deepEqual v (zeroOf (GoVal.typeOf v)) = true
    · simp [goZero, hd]
    · cases v <;> simp_all [goZero, GoVal.isNilv, goFail, deepEqual]
  · simp [goZero, GoVal.isNilv, goFail, deepEqual, GoVal.typeOf, zeroOf,
      GoType.beq_refl]

/-- C9: `FailNow(t, message)` reports the failure through the sink's
`Errorf` and then, when the sink implements the immediate-abort capability
`FailNow()`, invokes it and returns false; when the sink only implements
`Errorf`, it panics — the missing-abort case is never downgraded to a
normal failure return. -/
theorem c9_failnow_escalation (t : Sink) (msg : String) :
    (t.hasFailNow = true →
      goFailNow t msg =
        .returned { t with errors := t.errors ++ [msg], failNowCalled := true }
          false) ∧
    (t.hasFailNow = false →
      goFailNow t msg =
        .panicked { t with errors := t.errors ++ [msg] }
          "test failed and Testing does not implement FailNow()") := by
  constructor <;> intro h <;> simp [goFailNow, goFail, h]

theorem c9_failnow_escalation_witness :
    goFailNow ⟨[], true, false⟩ "boom" =
      .returned ⟨["boom"], true, true⟩ false ∧
    goFailNow ⟨[], false, false⟩ "boom" =
      .panicked ⟨["boom"], false, false⟩
        "test failed and Testing does not implement FailNow()" :=
  ⟨(c9_failnow_escalation ⟨[], true, false⟩ "boom").1 rfl,
   (c9_failnow_escalation ⟨[], false, false⟩ "boom").2 rfl⟩

/-- C10: for every value whose dynamic type is not `bool` (the int `1`, the
string `"true"`, ...), `True(t, v)` reports a failure and returns false
while `False(t, v)` succeeds and returns true: the type switch performs no
coercion and leaves the extracted boolean at `false`. -/
theorem c10_true_false_nonbool (t : Sink) (v : GoVal)
    (h : GoVal.typeOf v ≠ .tbool) :
    (goTrue t v).2 = false ∧
    (goTrue t v).1.errors =
      t.errors ++ ["Expected " ++ prettySprint v ++ " to be true"] ∧
    goFalse t v = (t, true) := by
  cases v <;> first
    | exact absurd rfl h
    | exact ⟨rfl, rfl, rfl⟩

theorem c10_true_false_nonbool_witness :
    (goTrue ⟨[], false, false⟩ (.vint .tint 1)).2 = false ∧
    (goTrue ⟨[], false, false⟩ (.vint .tint 1)).1.errors =
      [] ++ ["Expected " ++ prettySprint (.vint .tint 1) ++ " to be true"] ∧
    goFalse ⟨[], false, false⟩ (.vint .tint 1) = (⟨[], false, false⟩, true) :=
  c10_true_false_nonbool ⟨[], false, false⟩ (.vint .tint 1)
    (by simp [GoVal.typeOf])

/-- `toFloat` (asserts.go): the numeric type switch.  Note the source lists
`uint8..uint64` but not plain `uint`, and no complex kinds; everything else
reports non-numeric.  Integer-to-double conversion is exact here (the
claims only use values far below 2^53, where Go's conversion is exact
too). -/
def toFloat : GoVal → Option GoFloat
  | .vint .tuint8 n => some (.fin n)
  | .vint .tuint16 n => some (.fin n)
  | .vint .tuint32 n => some (.fin n)
  | .vint .tuint64 n => some (.fin n)
  | .vint .tint n => some (.fin n)
  | .vint .tint8 n => some (.fin n)
  | .vint .tint16 n => some (.fin n)
  | .vint .tint32 n => some (.fin n)
  | .vint .tint64 n => some (.fin n)
  | .vfloat .tfloat32 x => some x
  | .vfloat .tfloat64 x => some x
  | _ => none

/-- `InDelta` (asserts.go): converts both operands to float64, fails when
either is non-numeric, passes when both are NaN, fails when exactly one is
NaN, and otherwise fails iff the difference falls outside `[-delta,
delta]`. -/
def goInDelta (t : Sink) (expected actual : GoVal) (delta : GoFloat) :
    Sink × Bool :=
  match toFloat expected, toFloat actual with
  | some af, some bf =>
    if af.isNaN && bf.isNaN then (t, true)
    else if af.isNaN then goFail t "Actual must not be NaN"
    else if bf.isNaN then
      goFail t ("Expected " ++ prettySprint expected ++ " with delta " ++
        ", but got: NaN")
    else
      let dt := af.fsub bf
      if dt.flt delta.fneg || dt.fgt delta then
        goFail t ("Expected max difference between " ++
          prettySprint expected ++ " and " ++ prettySprint actual ++
          " allowed is delta, but got: " ++ prettySprint (.vfloat .tfloat64 dt))
      else (t, true)
  | _, _ => goFail t "Parameters must be numerical"

/-- C2: `InDelta(1.001, 1, 0.01)` succeeds, `InDelta(1, 2, 0.5)` fails, and
for every delta, `InDelta(NaN, NaN, delta)` succeeds (the explicit
NaN-equals-NaN carve-out) while `InDelta(x, NaN, delta)` fails for every
finite float64 `x`.  (1.001 embeds as the exact rational; the nearest
binary double differs by less than 2^-43, which cannot change either
comparison against 0.01.) -/
theorem c2_indelta_tolerance (t : Sink) (eps : GoFloat) (q : ℚ) :
    (goInDelta t (.vfloat .tfloat64 (.fin (1001/1000))) (.vint .tint 1)
      (.fin (1/100))).2 = true ∧
    (goInDelta t (.vint .tint 1) (.vint .tint 2) (.fin (1/2))).2 = false ∧
    (goInDelta t (.vfloat .tfloat64 .nan) (.vfloat .tfloat64 .nan) eps).2 =
      true ∧
    (goInDelta t (.vfloat .tfloat64 (.fin q)) (.vfloat .tfloat64 .nan)
      eps).2 = false := by
  refine ⟨?_, ?_, ?_, ?_⟩ <;>
    norm_num [goInDelta, toFloat, GoFloat.isNaN, GoFloat.fsub, GoFloat.flt,
      GoFloat.fgt, GoFloat.fneg, goFail]

/-- The `numericZeros` table (assertions.go): one zero per numeric type,
compared against the probe with interface equality. -/
def numericZeros : List GoVal :=
  [.vint .tint 0, .vint .tint8 0, .vint .tint16 0, .vint .tint32 0,
   .vint .tint64 0, .vint .tuint 0, .vint .tuint8 0, .vint .tuint16 0,
   .vint .tuint32 0, .vint .tuint64 0,
   .vfloat .tfloat32 (.fin 0), .vfloat .tfloat64 (.fin 0)]

/-- `isEmpty` (assertions.go): nil, `""` and `false` are empty; any numeric
zero is empty; maps, slices (and channel-likes, not modelled) are empty iff
their length is zero; a nil pointer is empty; `time.Time` and
`*time.Time` special cases are outside the embedded value universe; every
other value is not empty. -/
def isEmpty (v : GoVal) : Bool :=
  if GoVal.isNilv v || goEq v (.vstr "") || goEq v (.vbool false) then true
  else if numericZeros.any (fun num => goEq num v) then true
  else
    match v with
    | .vmap _ _ none => true
    | .vmap _ _ (some (_, m)) => m.isEmpty
    | .vslice _ none => true
    | .vslice _ (some (_, l)) => l.isEmpty
    | .vptr _ none => true
    | _ => false

/-- C8: the spec's emptiness vectors: `isEmpty(0)` is true, `isEmpty("0")`
is false, a zero-length slice is empty, and the one-element slice
containing 0 is not. -/
theorem c8_isempty_vectors :
    isEmpty (.vint .tint 0) = true ∧
    isEmpty (.vstr "0") = false ∧
    isEmpty (.vslice .tint (some (1, []))) = true ∧
    isEmpty (.vslice .tint (some (1, [.vint .tint 0]))) = false :=
  ⟨rfl, rfl, rfl, rfl⟩

/-- The pointer-dereference loop at the top of `containsElement`:
`reflect.Value.Elem` applied through every pointer layer; dereferencing a
nil pointer yields the invalid `reflect.Value` (represented by `nilv`). -/
def derefValue : GoVal → GoVal
  | .vptr _ (some (_, p)) => derefValue p
  | .vptr _ none => .nilv
  | v => v

/-- `reflect.Value.String()`: the string itself for string kinds, and the
placeholder rendering for every other kind (it is one of the few `Value`
accessors that does not panic). -/
def reflectString : GoVal → String
  | .vstr s => s
  | .nilv => "<invalid Value>"
  | v => "<" ++ typeName (GoVal.typeOf v) ++ " Value>"

/-- Substring search on character lists (`strings.Contains` with the
needle second). -/
def containsSub (needle : List Char) : List Char → Bool
  | [] => needle.isPrefixOf []
  | c :: rest => needle.isPrefixOf (c :: rest) || containsSub needle rest

/-- `strings.Contains hay sub`. -/
def strContains (hay sub : String) : Bool :=
  containsSub sub.toList hay.toList

/-- The body of `containsElement` (asserts.go) without the deferred
`recover`: a reflection panic — taking `Len` of, or indexing, a kind that
supports neither (bool, ints, floats, funcs, the invalid value left by a
nil-pointer chain) — is the `error` case.  Strings probe by substring
(via `reflect.Value.String` on the dereferenced element), maps by key
equality, structs by exported-field name with the `json` tag preferred,
and slices/arrays element-wise via `AreEqualObjects` against the original
(underef'd) element. -/
def containsElementCore (actual expect : GoVal) : Except Unit (Bool × Bool) :=
  let av := derefValue actual
  let ev := derefValue expect
  match av with
  | .vstr s => .ok (true, strContains s (reflectString ev))
  | .vmap _ _ none => .ok (true, false)
  | .vmap _ _ (some (_, m)) =>
    .ok (true, m.any (fun e => areEqualObjects e.1 expect))
  | .vstruct _ fields =>
    .ok (true, fields.any (fun f =>
      f.2.2.1 && (if f.2.1 ≠ "" then areEqualObjects (.vstr f.2.1) expect
        else areEqualObjects (.vstr f.1) expect)))
  | .vreflect _ => .ok (true, false)
  | .vslice _ none => .ok (true, false)
  | .vslice _ (some (_, l)) =>
    .ok (true, l.any (fun x => areEqualObjects x expect))
  | .varray _ l => .ok (true, l.any (fun x => areEqualObjects x expect))
  | _ => .error ()

/-- `containsElement` (asserts.go): the deferred `recover` converts any
reflection panic into the inapplicable result `(false, false)`. -/
def containsElement (actual expect : GoVal) : Bool × Bool :=
  match containsElementCore actual expect with
  | .ok r => r
  | .error _ => (false, false)

/-- C6: `containsElement` never panics or propagates an error: it is total,
and whenever its body would panic (any internal traversal failure, such as
taking the length of a scalar container), the recovered result is
`(ok = false, found = false)`. -/
theorem c6_contains_never_propagates (actual expect : GoVal)
    (h : containsElementCore actual expect = .error ()) :
    containsElement actual expect = (false, false) := by
  simp [containsElement, h]

theorem c6_contains_never_propagates_witness :
    containsElementCore (.vint .tint 5) (.vint .tint 1) = .error () ∧
    containsElement (.vint .tint 5) (.vint .tint 1) = (false, false) :=
  ⟨rfl, c6_contains_never_propagates (.vint .tint 5) (.vint .tint 1) rfl⟩

/-- Bit width and signedness of an integer type (`int` and `uint` are
64-bit on the platforms this library targets). -/
def intTypeBits : GoType → Option (Nat × Bool)
  | .tint => some (64, true)
  | .tint8 => some (8, true)
  | .tint16 => some (16, true)
  | .tint32 => some (32, true)
  | .tint64 => some (64, true)
  | .tuint => some (64, false)
  | .tuint8 => some (8, false)
  | .tuint16 => some (16, false)
  | .tuint32 => some (32, false)
  | .tuint64 => some (64, false)
  | _ => none

/-- Reduction of an unbounded integer into an integer type's range, as Go
integer conversions do (two's-complement truncation). -/
def wrapInt (n : Int) (bits : Nat) (signed : Bool) : Int :=
  if signed then (n + 2 ^ (bits - 1)) % 2 ^ bits - 2 ^ (bits - 1)
  else n % 2 ^ bits

/-- Truncation of a float toward zero, as Go float-to-integer conversion
does.  Go leaves the NaN case implementation-defined; the model picks 0 and
no claim depends on it. -/
def truncFloat : GoFloat → Int
  | .nan => 0
  | .fin q => if 0 ≤ q then ⌊q⌋ else ⌈q⌉

/-- Whether a type is one of the numeric kinds. -/
def isNumeric (t : GoType) : Bool :=
  (intTypeBits t).isSome || GoType.beq t .tfloat32 || GoType.beq t .tfloat64

/-- `reflect.Type.ConvertibleTo` restricted to the embedded type universe:
identical types always; any numeric type to any numeric type; integer
types to `string` (code-point conversion); `string` to and from `[]byte`
and `[]rune`.  Other Go conversion rules (named-type and pointer
conversions beyond identity) collapse to the identical-type case here. -/
def convertibleTo (src dst : GoType) : Bool :=
  GoType.beq src dst ||
  (isNumeric src && isNumeric dst) ||
  ((intTypeBits src).isSome && GoType.beq dst .tstring) ||
  (GoType.beq src .tstring &&
    (GoType.beq dst (.tslice .tuint8) || GoType.beq dst (.tslice .tint32))) ||
  ((GoType.beq src (.tslice .tuint8) || GoType.beq src (.tslice .tint32)) &&
    GoType.beq dst .tstring)

/-- Go's conversion of an integer to a one-code-point string (invalid code
points become the replacement character). -/
def runeString (n : Int) : String :=
  if _h : 0 ≤ n ∧ Nat.isValidChar n.toNat then String.mk [Char.ofNat n.toNat]
  else "�"

/-- `reflect.Value.Convert` on the embedded universe.  Integer-to-integer
wraps, float-to-integer truncates toward zero, integer-to-float is exact
(exact for the magnitudes any claim uses), float-to-float is the identity
on the rational embedding (float32 narrowing is not re-rounded; no claim
converts to float32).  String/byte-slice conversions are content-level
with a fresh base address 0 (unreached by every claim).  Inconvertible
pairs return the value unchanged; `areEqualValues` only calls this behind
its `ConvertibleTo` guard, as the source does. -/
def goConvert (v : GoVal) (dst : GoType) : GoVal :=
  match v, dst with
  | .vint _ n, dst =>
    match intTypeBits dst with
    | some (bits, signed) => .vint dst (wrapInt n bits signed)
    | none =>
      match dst with
      | .tfloat32 => .vfloat .tfloat32 (.fin n)
      | .tfloat64 => .vfloat .tfloat64 (.fin n)
      | .tstring => .vstr (runeString n)
      | _ => v
  | .vfloat _ x, dst =>
    match intTypeBits dst with
    | some (bits, signed) => .vint dst (wrapInt (truncFloat x) bits signed)
    | none =>
      match dst with
      | .tfloat32 => .vfloat .tfloat32 x
      | .tfloat64 => .vfloat .tfloat64 x
      | _ => v
  | .vstr s, .tslice .tuint8 =>
    .vslice .tuint8 (some (0, s.toList.map (fun c => .vint .tuint8 c.toNat)))
  | .vstr s, .tslice .tint32 =>
    .vslice .tint32 (some (0, s.toList.map (fun c => .vint .tint32 c.toNat)))
  | .vslice _ none, .tstring => .vstr ""
  | .vslice _ (some (_, l)), .tstring =>
    .vstr (String.mk (l.filterMap (fun x =>
      match x with
      | .vint _ n => some (Char.ofNat n.toNat)
      | _ => none)))
  | v, _ => v

/-- `AreEqualValues` (asserts.go): strict equality first; invalid operands
(one side the nil interface) fail; then both sides are dereferenced
through every pointer layer, and if either side's type is convertible to
the other's, the converted value is compared with `reflect.DeepEqual`.
The `none` result models the Go panic when a nil-pointer chain leaves an
invalid `reflect.Value` whose `Type()` is then taken.  Note the source's
second branch compares the converted actual against the `reflect.Value`
struct `actualValue` itself (not against `expected`), modelled by the
`vreflect` wrapper. -/
def areEqualValues (expected actual : GoVal) : Option Bool :=
  if areEqualObjects expected actual then some true
  else if GoVal.isNilv expected || GoVal.isNilv actual then some false
  else
    let av := derefValue actual
    let ev := derefValue expected
    if GoVal.isNilv av || GoVal.isNilv ev then none
    else
      let et := GoVal.typeOf ev
      let at' := GoVal.typeOf av
      if convertibleTo et at' then some (deepEqual (goConvert ev at') actual)
      else if convertibleTo at' et then
        some (deepEqual (goConvert av et) (.vreflect av))
      else some false

/-- C1 (counterexample): the lossy float-to-int truncation silently makes
the comparison succeed: `AreEqualValues(1.5, 1)` returns true (the claim
says it returns false), because `float64` is convertible to `int` and the
conversion truncates 1.5 to 1. -/
theorem c1_counterexample_lossy_truncation_succeeds :
    areEqualValues (.vfloat .tfloat64 (.fin (3 / 2))) (.vint .tint 1) =
      some true := by
  have hb : GoType.beq .tfloat64 .tint = false := rfl
  have h1 : deepEqual (.vfloat .tfloat64 (.fin (3 / 2))) (.vint .tint 1) =
      false := by
    simp [deepEqual, GoVal.typeOf, hb]
  have hc : goConvert (.vfloat .tfloat64 (.fin (3 / 2))) .tint =
      .vint .tint 1 := by
    have ht : truncFloat (.fin (3 / 2)) = 1 := by
      norm_num [truncFloat]
    simp [goConvert, intTypeBits, ht, wrapInt]
  have h2 : deepEqual (.vint .tint 1) (.vint .tint 1) = true := by
    simp [deepEqual, GoVal.typeOf, GoType.beq_refl]
  have hcv : convertibleTo .tfloat64 .tint = true := rfl
  simp [areEqualValues, areEqualObjects, h1, hc, h2, derefValue,
    GoVal.isNilv, GoVal.typeOf, hcv]

/-- C1 (amended): value-convertible equality succeeds via type conversion
whenever the converted expected value deep-equals the actual, regardless
of losslessness: for every `float64` value `a`, `AreEqualValues(a, n)`
returns true for `n` the Go `int` conversion of `a` (truncation toward
zero); a lossy float-to-int truncation does silently make the comparison
succeed. -/
theorem c1_conversion_equality_amended (q : ℚ) :
    areEqualValues (.vfloat .tfloat64 (.fin q))
      (.vint .tint (wrapInt (truncFloat (.fin q)) 64 true)) = some true := by
  have hb : GoType.beq .tfloat64 .tint = false := rfl
  have h1 : deepEqual (.vfloat .tfloat64 (.fin q))
      (.vint .tint (wrapInt (truncFloat (.fin q)) 64 true)) = false := by
    simp [deepEqual, GoVal.typeOf, hb]
  have hc : goConvert (.vfloat .tfloat64 (.fin q)) .tint =
      .vint .tint (wrapInt (truncFloat (.fin q)) 64 true) := by
    simp [goConvert, intTypeBits]
  have h2 : deepEqual (.vint .tint (wrapInt (truncFloat (.fin q)) 64 true))
      (.vint .tint (wrapInt (truncFloat (.fin q)) 64 true)) = true := by
    simp [deepEqual, GoVal.typeOf, GoType.beq_refl]
  have hcv : convertibleTo .tfloat64 .tint = true := rfl
  simp [areEqualValues, areEqualObjects, h1, hc, h2, derefValue,
    GoVal.isNilv, GoVal.typeOf, hcv]

/-- Splitting a character list on a separator, preserving empty pieces —
the semantics of `strings.Split` with a one-character separator. -/
def splitChars (sep : Char) : List Char → List (List Char)
  | [] => [[]]
  | c :: rest =>
    match splitChars sep rest with
    | [] => [[]]
    | h :: t => if c = sep then [] :: h :: t else (c :: h) :: t

/-- `difflib.SplitLines`: split after every newline and guarantee a final
newline on the last piece. -/
def splitLines (s : String) : List String :=
  (splitChars '\n' s.toList).map (fun l => String.mk l ++ "\n")

/-- `difflib.GetUnifiedDiffString`, modelled at the granularity every use
in the source relies on: the empty string exactly when the two line
sequences coincide (no hunks), and otherwise a non-empty unified-diff
block labelled Expected/Actual.  (The Myers hunk selection is immaterial:
no claim inspects the hunk contents.) -/
def getUnifiedDiffString (a b : List String) : String :=
  if a = b then ""
  else
    "--- Expected\n+++ Actual\n@@\n" ++
      String.join (a.map (fun l => "-" ++ l)) ++
      String.join (b.map (fun l => "+" ++ l))

/-- `spewConfig.Sdump`: a deterministic, address-free rendering with a
trailing newline.  Only its equality on identical inputs matters to any
claim; the rendering reuses the Go-syntax printer. -/
def sdump (v : GoVal) : String :=
  prettySprint v ++ "\n"

/-- `typeAndKind` (assertions.go): the runtime type and kind, with one
pointer level stripped. -/
def typeAndKind (v : GoVal) : GoType × GoKind :=
  let t := GoVal.typeOf v
  let k := t.kind
  if k = GoKind.kptr then (t.elemType, t.elemType.kind)
  else (t, k)

/-- `diff` (assertions.go): nil inputs, differing type descriptors, or a
shared kind outside struct/map/slice/array yield the empty string;
otherwise both values are dumped and a unified diff block is returned
(prefixed with a label, hence never empty on that path). -/
def godiff (expected actual : GoVal) : String :=
  if GoVal.isNilv expected || GoVal.isNilv actual then ""
  else
    let ek := (typeAndKind expected).2
    if !(GoType.beq (typeAndKind expected).1 (typeAndKind actual).1) then ""
    else if ek ≠ GoKind.kstruct ∧ ek ≠ GoKind.kmap ∧ ek ≠ GoKind.kslice ∧
        ek ≠ GoKind.karray then ""
    else
      "\n\nDiff:\n" ++
        getUnifiedDiffString (splitLines (sdump expected))
          (splitLines (sdump actual))

/-- `prettifyValues` (asserts.go): `%#v` renderings of both values (the
`reflect.Type` special case has no representative in the embedded value
universe). -/
def prettifyValues (expected actual : GoVal) : String × String :=
  (prettySprint expected, prettySprint actual)

/-- `pretty.Diff`: the path-level difference list, empty on identical
values; only its emptiness is relied upon. -/
def prettyDiff (expected actual : GoVal) : List String :=
  if GoVal.beq expected actual then [] else ["values differ"]

/-- The line painter of `diffColorize`: additions blue, deletions red,
context gray, via ANSI escapes as `dolab/colorize` emits them. -/
def paintLine (line : String) : String :=
  let color := if line.startsWith "+" then "34"
    else if line.startsWith "-" then "31" else "37"
  "\x1b[" ++ color ++ "m" ++ line ++ "\x1b[0m"

/-- `diffColorize` (asserts.go): paint every line of the diff. -/
def diffColorize (diffs : String) : String :=
  String.intercalate "\n"
    ((splitChars '\n' diffs.toList).map (fun l => paintLine (String.mk l)))

/-- `diffValues` (asserts.go): pretty-print both values, take the unified
line diff, and fall back to `pretty.Diff` only when the unified diff came
back empty; note there is no nil/type/kind gating at all. -/
def diffValues (expected actual : GoVal) : String :=
  let p := prettifyValues expected actual
  let diffs := getUnifiedDiffString (splitLines p.1) (splitLines p.2)
  if diffs = "" then
    if prettyDiff expected actual = [] then ""
    else "\n\n" ++ toString (prettyDiff expected actual) ++ "\n"
  else "\n\n" ++ diffColorize diffs ++ "\n"

theorem newline_prefix_ne_empty (s : String) : "\n\nDiff:\n" ++ s ≠ "" := by
  intro h
  have hd := congrArg String.data h
  simp [String.data_append] at hd

/-- C4 (counterexample): the current diff renderer `diffValues`
(asserts.go) applies no kind gating: two plain ints — same type, kind not
in the struct/map/slice/array set — still produce a non-empty diff, so the
claim's "returns the empty string whenever ... the shared kind is not one
of struct, map, slice, or array" fails on it. -/
theorem c4_counterexample_diffvalues_ints :
    diffValues (.vint .tint 1) (.vint .tint 2) ≠ "" := by
  have hp : prettySprint (.vint .tint 1) = "1" := by
    simp [prettySprint]
    decide
  have hq : prettySprint (.vint .tint 2) = "2" := by
    simp [prettySprint]
    decide
  simp [diffValues, prettifyValues, hp, hq]
  decide

/-- C4 (amended): the gating holds of the legacy renderer `diff`
(assertions.go): it returns a non-empty string exactly when both inputs
are non-nil, their (one pointer level stripped) type descriptors agree,
and the shared kind is struct, map, slice or array; the current renderer
`diffValues` (asserts.go) has no such gate. -/
theorem c4_diff_gating_amended (expected actual : GoVal) :
    godiff expected actual ≠ "" ↔
      (GoVal.isNilv expected = false ∧ GoVal.isNilv actual = false ∧
        GoType.beq (typeAndKind expected).1 (typeAndKind actual).1 = true ∧
        ((typeAndKind expected).2 = GoKind.kstruct ∨
         (typeAndKind expected).2 = GoKind.kmap ∨
         (typeAndKind expected).2 = GoKind.kslice ∨
         (typeAndKind expected).2 = GoKind.karray)) := by
  cases h1 : GoVal.isNilv expected with
  | true => simp [godiff, h1]
  | false =>
    cases h2 : GoVal.isNilv actual with
    | true => simp [godiff, h1, h2]
    | false =>
      cases h3 : GoType.beq (typeAndKind expected).1 (typeAndKind actual).1 with
      | false => simp [godiff, h1, h2, h3]
      | true =>
        by_cases h4 : (typeAndKind expected).2 = GoKind.kstruct ∨
            (typeAndKind expected).2 = GoKind.kmap ∨
            (typeAndKind expected).2 = GoKind.kslice ∨
            (typeAndKind expected).2 = GoKind.karray
        · have h5 : ¬((typeAndKind expected).2 ≠ GoKind.kstruct ∧
              (typeAndKind expected).2 ≠ GoKind.kmap ∧
              (typeAndKind expected).2 ≠ GoKind.kslice ∧
              (typeAndKind expected).2 ≠ GoKind.karray) := by tauto
          simp [godiff, h1, h2, h3, h5, newline_prefix_ne_empty, h4]
        · have h5 : (typeAndKind expected).2 ≠ GoKind.kstruct ∧
              (typeAndKind expected).2 ≠ GoKind.kmap ∧
              (typeAndKind expected).2 ≠ GoKind.kslice ∧
              (typeAndKind expected).2 ≠ GoKind.karray := by tauto
          simp [godiff, h1, h2, h3, h5, h4]

/-- A parsed JSON document.  `getJsonValue` works on raw byte buffers that
are always well-formed sub-documents of the input, so the byte-level
buffers are represented by their parse trees; numbers are restricted to
integers, which covers every numeric literal the claims touch. -/
inductive Json where
  | jnull
  | jbool (b : Bool)
  | jnum (n : Int)
  | jstr (s : String)
  | jarr (elems : List Json)
  | jobj (fields : List (String × Json))
deriving Repr

/-- First member of a JSON object with the given name. -/
def lookupField : List (String × Json) → String → Option Json
  | [], _ => none
  | (k, v) :: rest, key => if k = key then some v else lookupField rest key

/-- `jsonparser.Get(buf, key)` with a single key: member lookup when the
buffer is an object (the key is matched literally, dots included), and the
key-path-not-found error otherwise.  The value comes back as its parse
tree (the source receives the raw value bytes). -/
def jsonGet (buf : Json) (key : String) : Option Json :=
  match buf with
  | .jobj fields => lookupField fields key
  | _ => none

/-- Splitting off everything up to the first `.`, as
`strings.SplitN(key, ".", 2)` does: the second component is `none` when no
dot occurs. -/
def splitFirstDotAux : List Char → List Char × Option (List Char)
  | [] => ([], none)
  | c :: rest =>
    if c = '.' then ([], some rest)
    else
      let r := splitFirstDotAux rest
      (c :: r.1, r.2)

/-- `strings.SplitN(s, ".", 2)` as a pair. -/
def splitFirstDot (s : String) : String × Option String :=
  let r := splitFirstDotAux s.toList
  (String.mk r.1, r.2.map String.mk)

/-- Accumulating decimal digit parser. -/
def parseNatAux : List Char → Nat → Option Nat
  | [], acc => some acc
  | c :: rest, acc =>
    if c.isDigit then parseNatAux rest (acc * 10 + (c.toNat - '0'.toNat))
    else none

/-- `strconv.ParseInt(s, 10, 32)` reduced to success or failure with the
parsed value: optional sign, at least one digit, all digits, 32-bit
range. -/
def parseInt32 (s : String) : Option Int :=
  let p : Bool × List Char :=
    match s.toList with
    | '-' :: rest => (true, rest)
    | '+' :: rest => (false, rest)
    | cs => (false, cs)
  match p.2 with
  | [] => none
  | ds =>
    match parseNatAux ds 0 with
    | none => none
    | some n =>
      let v : Int := if p.1 then -(n : Int) else (n : Int)
      if -(2 ^ 31) ≤ v ∧ v < 2 ^ 31 then some v else none

/-- The loop body of `getJsonValue` (asserts.go), transcribed iteration by
iteration; the fuel argument only bounds the recursion (each `continue`
strictly shortens the key, so `key.length + 1` fuel can never run out).
Per iteration: try the whole remaining key as a literal member name; then
split at the first dot and try the head as a member name (descending and
continuing with the tail when one remains); then reinterpret the head as a
base-10 array index — a parse failure breaks out with the pending
key-path-not-found error, a non-array buffer breaks out with the
malformed-array error from `ArrayEach`, and an out-of-range index leaves
the data buffer at the `nil` the failed member lookups reset it to, which
the final-segment break then returns with a nil error (`.ok none`). -/
def getJsonValueAux : Nat → Json → String → Except String (Option Json)
  | 0, _, _ => .error "internal: fuel exhausted"
  | fuel + 1, buf, key =>
    match jsonGet buf key with
    | some v => .ok (some v)
    | none =>
      let parts := splitFirstDot key
      match jsonGet buf parts.1 with
      | some v =>
        match parts.2 with
        | none => .ok (some v)
        | some key' => getJsonValueAux fuel v key'
      | none =>
        match parseInt32 parts.1 with
        | none => .error "Key path not found"
        | some n =>
          match buf with
          | .jarr elems =>
            if h : 0 ≤ n ∧ n.toNat < elems.length then
              match parts.2 with
              | none => .ok (some (elems.get ⟨n.toNat, h.2⟩))
              | some key' =>
                getJsonValueAux fuel (elems.get ⟨n.toNat, h.2⟩) key'
            else
              match parts.2 with
              | none => .ok none
              | some key' => getJsonValueAux fuel buf key'
          | _ => .error "Malformed array"

/-- `getJsonValue` (asserts.go). -/
def getJsonValue (doc : Json) (key : String) : Except String (Option Json) :=
  getJsonValueAux (key.length + 1) doc key

/-- Raw textual rendering of a JSON value (string escaping elided — no
claim renders a string): the raw bytes `jsonparser` hands back for
non-string leaves coincide with this rendering. -/
def renderJson : Json → String
  | .jnull => "null"
  | .jbool b => cond b "true" "false"
  | .jnum n => toString n
  | .jstr s => "\"" ++ s ++ "\""
  | .jarr _ => "[...]"
  | .jobj _ => "\x7b...\x7d"

/-- C3: on `{"a": {"b": [1,2,3]}}` the path `a.b.1` resolves left to right
— each segment tried as an object key first, then as a zero-based array
index — to the element 2, whose raw bytes render as `"2"`; and on
`{"a": 1}` the path `missing` yields a non-nil (key-path-not-found)
error. -/
theorem c3_getjsonvalue_paths :
    getJsonValue
        (.jobj [("a", .jobj [("b", .jarr [.jnum 1, .jnum 2, .jnum 3])])])
        "a.b.1" = .ok (some (.jnum 2)) ∧
    renderJson (.jnum 2) = "2" ∧
    getJsonValue (.jobj [("a", .jnum 1)]) "missing" =
      .error "Key path not found" :=
  ⟨rfl, rfl, rfl⟩

end GolibAssert
